import Mathlib

/-!
Shallow embedding of the HRMS Lite backend (`src/backend/main.py`).

The backend is a FastAPI application over a SQLite store with two tables,
`employees` and `attendance`.  We model the store as two Lean lists, kept in
SQLite rowid (insertion) order: `INSERT` appends, `UPDATE ... WHERE id = ?`
maps over the list editing the matching rows in place, `DELETE ... WHERE`
filters, `SELECT ... fetchone()` on a predicate is `List.find?`, and
`ORDER BY k DESC` is `List.mergeSort` with the corresponding descending
boolean key comparison.  `TEXT` columns are Lean `String`s (dates stay in
their `YYYY-MM-DD` string form, timestamps in their ISO string form; SQLite
compares `TEXT` lexicographically, as does the `LinearOrder String`
instance).  Each request handler becomes a pure function; mutating handlers
return the response (`Except ApiError α`, where `ApiError` is the modelled
`HTTPException`) together with the resulting store, so the error branches
return the untouched input store exactly where the Python code raises before
executing any DML.  `datetime.now().isoformat()` and `uuid.uuid4()` are
modelled as explicit `created_at` / fresh-id arguments to the handlers.
-/

/-- Attendance status: the `Literal["Present", "Absent"]` type of
`AttendanceCreate.status`, also enforced by the `CHECK` constraint on the
`attendance` table. -/
inductive Status where
  | Present : Status
  | Absent : Status
deriving DecidableEq, Repr

/-- A row of the `employees` table (also the `Employee` response model). -/
structure Employee where
  id : String
  employee_id : String
  full_name : String
  email : String
  department : String
  created_at : String
deriving DecidableEq, Repr

/-- A row of the `attendance` table (also the `AttendanceRecord` response
model). -/
structure AttendanceRecord where
  id : String
  employee_id : String
  date : String
  status : Status
  created_at : String
deriving DecidableEq, Repr

/-- The raw payload of `POST /api/employees` before pydantic validation. -/
structure EmployeeCreateInput where
  employee_id : String
  full_name : String
  email : String
  department : String
deriving DecidableEq, Repr

/-- The validated `EmployeeCreate` pydantic model: the three free-text
fields have passed the `Field` length bounds and the `not_empty` validator
(which returns them stripped). -/
structure EmployeeCreate where
  employee_id : String
  full_name : String
  email : String
  department : String
deriving DecidableEq, Repr

/-- The validated `AttendanceCreate` pydantic model. -/
structure AttendanceCreate where
  employee_id : String
  date : String
  status : Status
deriving DecidableEq, Repr

/-- Response model `EmployeeWithAttendance`: an employee row joined with its aggregate
Present/Absent day counts. -/
structure EmployeeWithAttendance extends Employee where
  present_days : Nat
  absent_days : Nat
deriving DecidableEq, Repr

/-- One entry of the dashboard department distribution. -/
structure DepartmentCount where
  name : String
  count : Nat
deriving DecidableEq, Repr

/-- The `DashboardStats` response model. -/
structure DashboardStats where
  total_employees : Nat
  total_departments : Nat
  present_today : Nat
  absent_today : Nat
  total_present : Nat
  total_absent : Nat
  departments : List DepartmentCount
deriving DecidableEq, Repr

/-- A raised `HTTPException`: status code and detail message. -/
structure ApiError where
  status_code : Nat
  detail : String
deriving DecidableEq, Repr

/-- Decidable equality of handler responses, so that concrete runs of the
model can be checked by evaluation. -/
instance {ε α : Type} [DecidableEq ε] [DecidableEq α] :
    DecidableEq (Except ε α) := fun x y =>
  match x, y with
  | .ok a, .ok b =>
      if h : a = b then isTrue (by rw [h])
      else isFalse (fun hc => h (Except.ok.inj hc))
  | .error a, .error b =>
      if h : a = b then isTrue (by rw [h])
      else isFalse (fun hc => h (Except.error.inj hc))
  | .ok _, .error _ => isFalse (fun hc => Except.noConfusion hc)
  | .error _, .ok _ => isFalse (fun hc => Except.noConfusion hc)

/-- The persistent store: the two SQLite tables, each in rowid (insertion)
order. -/
structure Store where
  employees : List Employee
  attendance : List AttendanceRecord
deriving DecidableEq, Repr

/-- The freshly initialised store (`init_db` creates empty tables). -/
def Store.empty : Store := { employees := [], attendance := [] }

/-- Python `str.strip()`: drops leading and trailing whitespace, modelled
on the character list of the string. -/
def pyStrip (s : String) : String :=
  String.mk (((s.data.dropWhile Char.isWhitespace).reverse.dropWhile
    Char.isWhitespace).reverse)

/-- Python `str.lower()` and SQLite `LOWER()`: per-character lower-casing,
modelled on the character list of the string. -/
def pyLower (s : String) : String := String.mk (s.data.map Char.toLower)

/-- Pydantic validation of `EmployeeCreate`: the `Field(min_length, max_length)`
bounds on `employee_id` (1–50), `full_name` (1–100) and `department` (1–100),
then the `not_empty` validator, which rejects values that are empty after
stripping and stores them stripped.  (`EmailStr` shape validation is library
behaviour outside this repository and is not modelled; the email value passes
through unchanged, as in the source.) -/
def validateEmployeeCreate (r : EmployeeCreateInput) : Option EmployeeCreate :=
  if 1 ≤ r.employee_id.length ∧ r.employee_id.length ≤ 50
      ∧ 1 ≤ r.full_name.length ∧ r.full_name.length ≤ 100
      ∧ 1 ≤ r.department.length ∧ r.department.length ≤ 100
      ∧ pyStrip r.employee_id ≠ "" ∧ pyStrip r.full_name ≠ ""
      ∧ pyStrip r.department ≠ ""
  then some { employee_id := pyStrip r.employee_id,
              full_name := pyStrip r.full_name,
              email := r.email, department := pyStrip r.department }
  else none

/-- Descending comparison on `created_at` used by
`ORDER BY e.created_at DESC` in `get_employees`. -/
def createdAtDesc (a b : Employee) : Bool := decide (b.created_at ≤ a.created_at)

/-- Descending comparison on `(date, created_at)` used by
`ORDER BY date DESC, created_at DESC` in `get_attendance`. -/
def attOrderDesc (a b : AttendanceRecord) : Bool :=
  if a.date = b.date then decide (b.created_at ≤ a.created_at)
  else decide (b.date < a.date)

/-- The aggregate row built for one employee by the
`LEFT JOIN attendance ... GROUP BY e.id` query: the employee's columns plus
`SUM(CASE WHEN a.status = 'Present' THEN 1 ELSE 0 END)` (and likewise
`'Absent'`), with `COALESCE(..., 0)` making both counts 0 when the left join
matches no attendance row. -/
def employeeSummary (att : List AttendanceRecord) (e : Employee) :
    EmployeeWithAttendance :=
  { e with
    present_days := att.countP (fun r => decide (r.employee_id = e.id ∧ r.status = .Present)),
    absent_days := att.countP (fun r => decide (r.employee_id = e.id ∧ r.status = .Absent)) }

/-- Handler for `GET /api/employees`: every employee joined with aggregate
present/absent counts, ordered by creation time descending. -/
def get_employees (s : Store) : List EmployeeWithAttendance :=
  (s.employees.mergeSort createdAtDesc).map (employeeSummary s.attendance)

/-- Handler for `GET /api/employees/{employee_id}`: the same aggregate row for the
employee whose `id` equals the path parameter, 404 when the grouped query
returns no row. -/
def get_employee (s : Store) (employee_id : String) :
    Except ApiError EmployeeWithAttendance :=
  match s.employees.find? (fun e => decide (e.id = employee_id)) with
  | none => .error { status_code := 404, detail := "Employee not found" }
  | some e => .ok (employeeSummary s.attendance e)

/-- Handler `create_employee` for `POST /api/employees`: checks for a duplicate
`employee_id` (exact match), then for a duplicate email
(`LOWER(email) = LOWER(?)`), raising 400 from either check before any
insert; otherwise inserts the new row (email lower-cased) and returns it.
`new_id` models `str(uuid.uuid4())` and `created_at` models
`datetime.now().isoformat()`. -/
def create_employee (s : Store) (employee : EmployeeCreate)
    (new_id created_at : String) : Except ApiError Employee × Store :=
  if s.employees.any (fun e => decide (e.employee_id = employee.employee_id)) then
    (.error { status_code := 400,
              detail := "An employee with this Employee ID already exists" }, s)
  else if s.employees.any (fun e => decide (pyLower e.email = pyLower employee.email)) then
    (.error { status_code := 400,
              detail := "An employee with this email already exists" }, s)
  else
    let emp : Employee :=
      { id := new_id, employee_id := employee.employee_id,
        full_name := employee.full_name, email := pyLower employee.email,
        department := employee.department, created_at := created_at }
    (.ok emp, { s with employees := s.employees ++ [emp] })

/-- Handler `delete_employee` for `DELETE /api/employees/{employee_id}`: 404 when no
employee row has this `id`; otherwise deletes that employee's attendance
rows, then the employee row, in one transaction (the Python handler issues
both `DELETE`s on one connection and commits once). -/
def delete_employee (s : Store) (employee_id : String) :
    Except ApiError Unit × Store :=
  if s.employees.any (fun e => decide (e.id = employee_id)) then
    (.ok (),
     { employees := s.employees.filter (fun e => decide (¬ e.id = employee_id)),
       attendance := s.attendance.filter (fun r => decide (¬ r.employee_id = employee_id)) })
  else
    (.error { status_code := 404, detail := "Employee not found" }, s)

/-- Python truthiness of an `Optional[str]` query parameter: `None` and the
empty string are falsy, so `if employee_id:` skips the filter for both. -/
def strTruthy : Option String → Bool
  | none => false
  | some v => decide (v ≠ "")

/-- The `WHERE` clause assembled by `get_attendance`: starts from `1=1` and
adds `employee_id = ?` / `date = ?` conjuncts only for truthy parameters. -/
def attMatches (employee_id date : Option String) (r : AttendanceRecord) : Bool :=
  (if strTruthy employee_id then decide (some r.employee_id = employee_id) else true)
    && (if strTruthy date then decide (some r.date = date) else true)

/-- Handler `get_attendance` for `GET /api/attendance`: the rows matching the
assembled filters, ordered by `date DESC, created_at DESC`. -/
def get_attendance (s : Store) (employee_id date : Option String) :
    List AttendanceRecord :=
  (s.attendance.filter (attMatches employee_id date)).mergeSort attOrderDesc

/-- Handler `mark_attendance` for `POST /api/attendance`: 404 when no employee row has
`id = attendance.employee_id`; otherwise, when a row for
`(employee_id, date)` already exists, overwrites that row's `status` and
`created_at` in place (`UPDATE ... WHERE id = ?`) and keeps its id, else
inserts a new row under `new_id`.  Returns the record with the effective
id. -/
def mark_attendance (s : Store) (attendance : AttendanceCreate)
    (new_id created_at : String) : Except ApiError AttendanceRecord × Store :=
  if s.employees.any (fun e => decide (e.id = attendance.employee_id)) then
    match s.attendance.find? (fun r =>
        decide (r.employee_id = attendance.employee_id ∧ r.date = attendance.date)) with
    | some existing =>
        (.ok { id := existing.id, employee_id := attendance.employee_id,
               date := attendance.date, status := attendance.status,
               created_at := created_at },
         { s with attendance := s.attendance.map (fun r =>
             if r.id = existing.id then
               { r with status := attendance.status, created_at := created_at }
             else r) })
    | none =>
        let rec0 : AttendanceRecord :=
          { id := new_id, employee_id := attendance.employee_id,
            date := attendance.date, status := attendance.status,
            created_at := created_at }
        (.ok rec0, { s with attendance := s.attendance ++ [rec0] })
  else
    (.error { status_code := 404, detail := "Employee not found" }, s)

/-- Handler `delete_attendance` for `DELETE /api/attendance/{record_id}`: 404 when no
attendance row has this id; otherwise deletes it. -/
def delete_attendance (s : Store) (record_id : String) :
    Except ApiError Unit × Store :=
  if s.attendance.any (fun r => decide (r.id = record_id)) then
    (.ok (), { s with attendance := s.attendance.filter (fun r => decide (¬ r.id = record_id)) })
  else
    (.error { status_code := 404, detail := "Attendance record not found" }, s)

/-- Handler `get_dashboard_stats` for `GET /api/dashboard`; `today` models
`date.today().isoformat()`. -/
def get_dashboard_stats (s : Store) (today : String) : DashboardStats :=
  { total_employees := s.employees.length,
    total_departments := (s.employees.map Employee.department).dedup.length,
    present_today := s.attendance.countP (fun r =>
      decide (r.date = today ∧ r.status = .Present)),
    absent_today := s.attendance.countP (fun r =>
      decide (r.date = today ∧ r.status = .Absent)),
    total_present := s.attendance.countP (fun r => decide (r.status = .Present)),
    total_absent := s.attendance.countP (fun r => decide (r.status = .Absent)),
    departments :=
      ((s.employees.map Employee.department).dedup.map (fun d =>
          { name := d,
            count := s.employees.countP (fun e => decide (e.department = d)) })).mergeSort
        (fun a b => decide (b.count ≤ a.count)) }

/-- The states reachable from the empty store by the API's mutating
operations.  The id arguments of `create_employee` and `mark_attendance`
model `uuid.uuid4()`, so a step supplies them fresh; each constructor takes
the store component of the handler's result, which on the error paths is
the unchanged input store. -/
inductive Reachable : Store → Prop where
  | empty : Reachable Store.empty
  | create (s : Store) (c : EmployeeCreate) (new_id created_at : String) :
      Reachable s → new_id ∉ s.employees.map Employee.id →
      Reachable (create_employee s c new_id created_at).2
  | deleteEmp (s : Store) (employee_id : String) :
      Reachable s → Reachable (delete_employee s employee_id).2
  | mark (s : Store) (a : AttendanceCreate) (new_id created_at : String) :
      Reachable s → new_id ∉ s.attendance.map AttendanceRecord.id →
      Reachable (mark_attendance s a new_id created_at).2
  | deleteAtt (s : Store) (record_id : String) :
      Reachable s → Reachable (delete_attendance s record_id).2

/-! ## Store invariants

`Store.WF` collects the integrity constraints the SQLite schema declares
(`id` primary keys, the `employee_id` foreign key, `UNIQUE(employee_id,
date)`) and that the handlers maintain by their explicit pre-checks. -/

/-- Integrity of a store: primary keys are distinct, attendance rows
reference existing employees, and at most one attendance row exists per
`(employee_id, date)` pair. -/
structure Store.WF (s : Store) : Prop where
  emp_ids_nodup : (s.employees.map Employee.id).Nodup
  att_ids_nodup : (s.attendance.map AttendanceRecord.id).Nodup
  att_fk : ∀ r ∈ s.attendance, ∃ e ∈ s.employees, e.id = r.employee_id
  att_key : s.attendance.Pairwise (fun r1 r2 =>
    ¬(r1.employee_id = r2.employee_id ∧ r1.date = r2.date))

theorem Store.WF.empty : Store.empty.WF :=
  ⟨List.nodup_nil, List.nodup_nil, by simp [Store.empty], by simp [Store.empty]⟩

theorem Store.WF.create (s : Store) (c : EmployeeCreate) (new_id t : String)
    (hw : s.WF) (hf : new_id ∉ s.employees.map Employee.id) :
    ((create_employee s c new_id t).2).WF := by
  unfold create_employee
  by_cases h1 : s.employees.any (fun e => decide (e.employee_id = c.employee_id))
  · simpa [h1] using hw
  · by_cases h2 : s.employees.any (fun e => decide (pyLower e.email = pyLower c.email))
    · simpa [h1, h2] using hw
    · simp only [h1, h2, Bool.false_eq_true, if_false]
      refine ⟨?_, hw.att_ids_nodup, ?_, hw.att_key⟩
      · have hids : ∀ x ∈ s.employees, ¬ x.id = new_id := by
          intro x hx heq
          exact hf (List.mem_map.mpr ⟨x, hx, heq⟩)
        simpa [List.nodup_append] using ⟨hw.emp_ids_nodup, hids⟩
      · intro r hr
        obtain ⟨e, he, heq⟩ := hw.att_fk r hr
        exact ⟨e, by simp [he], heq⟩

theorem Store.WF.deleteEmp (s : Store) (eid : String) (hw : s.WF) :
    ((delete_employee s eid).2).WF := by
  unfold delete_employee
  by_cases h1 : s.employees.any (fun e => decide (e.id = eid))
  · simp only [h1, if_true]
    refine ⟨?_, ?_, ?_, ?_⟩
    · exact hw.emp_ids_nodup.sublist ((List.filter_sublist _).map _)
    · exact hw.att_ids_nodup.sublist ((List.filter_sublist _).map _)
    · intro r hr
      simp only [List.mem_filter, decide_not, Bool.not_eq_eq_eq_not, Bool.not_true,
        decide_eq_false_iff_not] at hr
      obtain ⟨e, he, heq⟩ := hw.att_fk r hr.1
      refine ⟨e, ?_, heq⟩
      simp only [List.mem_filter, decide_not, Bool.not_eq_eq_eq_not, Bool.not_true,
        decide_eq_false_iff_not]
      exact ⟨he, by rw [heq]; exact hr.2⟩
    · exact hw.att_key.sublist (List.filter_sublist _)
  · simpa [h1] using hw

theorem Store.WF.deleteAtt (s : Store) (rid : String) (hw : s.WF) :
    ((delete_attendance s rid).2).WF := by
  unfold delete_attendance
  by_cases h1 : s.attendance.any (fun r => decide (r.id = rid))
  · simp only [h1, if_true]
    refine ⟨hw.emp_ids_nodup, ?_, ?_, ?_⟩
    · exact hw.att_ids_nodup.sublist ((List.filter_sublist _).map _)
    · intro r hr
      exact hw.att_fk r (List.mem_of_mem_filter hr)
    · exact hw.att_key.sublist (List.filter_sublist _)
  · simpa [h1] using hw

theorem Store.WF.mark (s : Store) (a : AttendanceCreate) (new_id t : String)
    (hw : s.WF) (hfresh : new_id ∉ s.attendance.map AttendanceRecord.id) :
    ((mark_attendance s a new_id t).2).WF := by
  unfold mark_attendance
  by_cases h1 : s.employees.any (fun e => decide (e.id = a.employee_id))
  case neg => simpa [h1] using hw
  case pos =>
  simp only [h1, if_true]
  rcases hfind : s.attendance.find? (fun r =>
      decide (r.employee_id = a.employee_id ∧ r.date = a.date)) with _ | ex
  · simp only [hfind]
    have hnomatch : ∀ r ∈ s.attendance,
        ¬(r.employee_id = a.employee_id ∧ r.date = a.date) := by
      intro r hr
      simpa using List.find?_eq_none.mp hfind r hr
    have hemp : ∃ e ∈ s.employees, e.id = a.employee_id := by
      rcases List.any_eq_true.mp h1 with ⟨e, he, hde⟩
      exact ⟨e, he, of_decide_eq_true hde⟩
    refine ⟨hw.emp_ids_nodup, ?_, ?_, ?_⟩
    · have hids : ∀ x ∈ s.attendance, ¬ x.id = new_id :=
        fun x hx heq => hfresh (List.mem_map.mpr ⟨x, hx, heq⟩)
      simpa [List.nodup_append] using ⟨hw.att_ids_nodup, hids⟩
    · intro r hr
      rcases List.mem_append.mp hr with h | h
      · exact hw.att_fk r h
      · simp only [List.mem_singleton] at h
        subst h
        simpa using hemp
    · rw [List.pairwise_append]
      refine ⟨hw.att_key, by simp, ?_⟩
      intro r1 hr1 r2 hr2 hcon
      simp only [List.mem_singleton] at hr2
      subst hr2
      exact hnomatch r1 hr1 (by simpa using hcon)
  · simp only [hfind]
    have hid : ∀ r : AttendanceRecord,
        (if r.id = ex.id then { r with status := a.status, created_at := t } else r).id
          = r.id := by
      intro r
      by_cases h : r.id = ex.id <;> simp [h]
    have heid : ∀ r : AttendanceRecord,
        (if r.id = ex.id then { r with status := a.status, created_at := t } else r).employee_id
          = r.employee_id := by
      intro r
      by_cases h : r.id = ex.id <;> simp [h]
    have hdate : ∀ r : AttendanceRecord,
        (if r.id = ex.id then { r with status := a.status, created_at := t } else r).date
          = r.date := by
      intro r
      by_cases h : r.id = ex.id <;> simp [h]
    refine ⟨hw.emp_ids_nodup, ?_, ?_, ?_⟩
    · have hmap : (s.attendance.map (fun r =>
          if r.id = ex.id then { r with status := a.status, created_at := t } else r)).map
            AttendanceRecord.id = s.attendance.map AttendanceRecord.id := by
        rw [List.map_map]
        exact List.map_congr_left (fun r _ => hid r)
      rw [hmap]
      exact hw.att_ids_nodup
    · intro r hr
      rcases List.mem_map.mp hr with ⟨r0, hr0, rfl⟩
      obtain ⟨e, he, heq⟩ := hw.att_fk r0 hr0
      exact ⟨e, he, by rw [heid r0]; exact heq⟩
    · rw [List.pairwise_map]
      apply hw.att_key.imp
      intro r1 r2 h hcon
      apply h
      rwa [heid r1, heid r2, hdate r1, hdate r2] at hcon

/-- Every reachable store satisfies the integrity invariants. -/
theorem Reachable.wf {s : Store} (h : Reachable s) : s.WF := by
  induction h with
  | empty => exact Store.WF.empty
  | create s c new_id t _ hf ih => exact ih.create s c new_id t hf
  | deleteEmp s eid _ ih => exact ih.deleteEmp s eid
  | mark s a new_id t _ hf ih => exact ih.mark s a new_id t hf
  | deleteAtt s rid _ ih => exact ih.deleteAtt s rid

/-! ## Claim theorems -/

/-- Claim C8: marking attendance for an employee id that references no
existing employee fails with 404 Not-Found and leaves the store unchanged:
no attendance row is inserted and no existing row is modified. -/
theorem claim_C8 (s : Store) (a : AttendanceCreate) (new_id t : String)
    (h : ¬ ∃ e ∈ s.employees, e.id = a.employee_id) :
    mark_attendance s a new_id t =
      (.error { status_code := 404, detail := "Employee not found" }, s) := by
  have h1 : s.employees.any (fun e => decide (e.id = a.employee_id)) = false := by
    rw [List.any_eq_false]
    intro e he
    simp only [decide_eq_true_eq]
    exact fun heq => h ⟨e, he, heq⟩
  unfold mark_attendance
  simp [h1]

theorem claim_C8_witness :
    mark_attendance Store.empty
        { employee_id := "e1", date := "2024-01-15", status := .Present } "id1" "t1" =
      (.error { status_code := 404, detail := "Employee not found" }, Store.empty) :=
  claim_C8 Store.empty
    { employee_id := "e1", date := "2024-01-15", status := .Present } "id1" "t1"
    (by simp [Store.empty])

/-- Claim C4: creating an employee whose `employee_id` already exists fails
with the conflict error naming the Employee ID, regardless of the email;
otherwise, if an existing employee has the same email up to letter case, it
fails with the conflict error naming the email.  Both checks precede any
insert and on either failure the store is returned unchanged. -/
theorem claim_C4 (s : Store) (c : EmployeeCreate) (new_id t : String) :
    ((∃ e ∈ s.employees, e.employee_id = c.employee_id) →
      create_employee s c new_id t =
        (.error { status_code := 400,
                  detail := "An employee with this Employee ID already exists" }, s)) ∧
    ((¬ ∃ e ∈ s.employees, e.employee_id = c.employee_id) →
      (∃ e ∈ s.employees, pyLower e.email = pyLower c.email) →
      create_employee s c new_id t =
        (.error { status_code := 400,
                  detail := "An employee with this email already exists" }, s)) := by
  constructor
  · intro h
    have h1 : s.employees.any (fun e => decide (e.employee_id = c.employee_id)) = true := by
      rcases h with ⟨e, he, heq⟩
      exact List.any_eq_true.mpr ⟨e, he, decide_eq_true heq⟩
    unfold create_employee
    simp [h1]
  · intro h hmail
    have h1 : s.employees.any (fun e => decide (e.employee_id = c.employee_id)) = false := by
      rw [List.any_eq_false]
      intro e he
      simp only [decide_eq_true_eq]
      exact fun heq => h ⟨e, he, heq⟩
    have h2 : s.employees.any (fun e => decide (pyLower e.email = pyLower c.email)) = true := by
      rcases hmail with ⟨e, he, heq⟩
      exact List.any_eq_true.mpr ⟨e, he, decide_eq_true heq⟩
    unfold create_employee
    simp [h1, h2]

theorem claim_C4_witness :
    create_employee
        { employees := [{ id := "id0", employee_id := "E1", full_name := "Alice",
                          email := "alice@x.com", department := "Eng",
                          created_at := "t0" }], attendance := [] }
        { employee_id := "E1", full_name := "Bob", email := "bob@x.com",
          department := "Sales" } "id1" "t1" =
      (.error { status_code := 400,
                detail := "An employee with this Employee ID already exists" },
       { employees := [{ id := "id0", employee_id := "E1", full_name := "Alice",
                         email := "alice@x.com", department := "Eng",
                         created_at := "t0" }], attendance := [] }) :=
  (claim_C4
    { employees := [{ id := "id0", employee_id := "E1", full_name := "Alice",
                      email := "alice@x.com", department := "Eng",
                      created_at := "t0" }], attendance := [] }
    { employee_id := "E1", full_name := "Bob", email := "bob@x.com",
      department := "Sales" } "id1" "t1").1
    ⟨{ id := "id0", employee_id := "E1", full_name := "Alice",
       email := "alice@x.com", department := "Eng", created_at := "t0" },
     by simp, rfl⟩

/-- Claim C3: deleting an employee whose id does not exist fails with 404
and the store is unchanged; otherwise the operation succeeds (no content),
removes every attendance record of that employee and the employee record
itself — the model performs both deletions in one step, so both take effect
together — keeps every other record, and a subsequent attendance listing
filtered by that employee id returns the empty list. -/
theorem claim_C3 (s : Store) (eid : String) :
    ((¬ ∃ e ∈ s.employees, e.id = eid) →
      delete_employee s eid =
        (.error { status_code := 404, detail := "Employee not found" }, s)) ∧
    ((∃ e ∈ s.employees, e.id = eid) →
      (delete_employee s eid).1 = .ok () ∧
      (∀ r ∈ ((delete_employee s eid).2).attendance, r.employee_id ≠ eid) ∧
      (∀ r ∈ s.attendance, r.employee_id ≠ eid → r ∈ ((delete_employee s eid).2).attendance) ∧
      (∀ e ∈ ((delete_employee s eid).2).employees, e.id ≠ eid) ∧
      (∀ e ∈ s.employees, e.id ≠ eid → e ∈ ((delete_employee s eid).2).employees) ∧
      (eid ≠ "" →
        get_attendance ((delete_employee s eid).2) (some eid) none = [])) := by
  constructor
  · intro h
    have h1 : s.employees.any (fun e => decide (e.id = eid)) = false := by
      rw [List.any_eq_false]
      intro e he
      simp only [decide_eq_true_eq]
      exact fun heq => h ⟨e, he, heq⟩
    unfold delete_employee
    simp [h1]
  · intro h
    have h1 : s.employees.any (fun e => decide (e.id = eid)) = true := by
      rcases h with ⟨e, he, heq⟩
      exact List.any_eq_true.mpr ⟨e, he, decide_eq_true heq⟩
    unfold delete_employee
    simp only [h1, if_true]
    refine ⟨trivial, ?_, ?_, ?_, ?_, ?_⟩
    · intro r hr
      simpa using (List.mem_filter.mp hr).2
    · intro r hr hne
      exact List.mem_filter.mpr ⟨hr, by simpa using hne⟩
    · intro e he
      simpa using (List.mem_filter.mp he).2
    · intro e he hne
      exact List.mem_filter.mpr ⟨he, by simpa using hne⟩
    · intro hne0
      unfold get_attendance
      have hfil : (List.filter (attMatches (some eid) none)
          (List.filter (fun r => decide (¬ r.employee_id = eid)) s.attendance)) = [] := by
        rw [List.filter_eq_nil_iff]
        intro r hr
        have hne : ¬ r.employee_id = eid := by simpa using (List.mem_filter.mp hr).2
        simp [attMatches, strTruthy, hne, hne0]
      rw [hfil]
      simp

theorem claim_C3_witness :
    (∀ r ∈ ((delete_employee
        { employees := [{ id := "id0", employee_id := "E1", full_name := "Alice",
                          email := "alice@x.com", department := "Eng",
                          created_at := "t0" }],
          attendance := [{ id := "a0", employee_id := "id0", date := "2024-01-15",
                           status := .Present, created_at := "t1" }] } "id0").2).attendance,
      r.employee_id ≠ "id0") ∧
    get_attendance ((delete_employee
        { employees := [{ id := "id0", employee_id := "E1", full_name := "Alice",
                          email := "alice@x.com", department := "Eng",
                          created_at := "t0" }],
          attendance := [{ id := "a0", employee_id := "id0", date := "2024-01-15",
                           status := .Present, created_at := "t1" }] } "id0").2)
      (some "id0") none = [] := by
  have h := (claim_C3
    { employees := [{ id := "id0", employee_id := "E1", full_name := "Alice",
                      email := "alice@x.com", department := "Eng",
                      created_at := "t0" }],
      attendance := [{ id := "a0", employee_id := "id0", date := "2024-01-15",
                       status := .Present, created_at := "t1" }] } "id0").2
    ⟨{ id := "id0", employee_id := "E1", full_name := "Alice",
       email := "alice@x.com", department := "Eng", created_at := "t0" },
     by simp, rfl⟩
  exact ⟨h.2.1, h.2.2.2.2.2 (by decide)⟩

/-- Claim C10: an `employee_id` or `date` query parameter supplied as the
empty string is falsy in the handler's `if employee_id:` / `if date:`
guards, so no filter clause is added for it — it behaves exactly like an
absent parameter, and listing with `employee_id=""` and no date returns
every attendance record. -/
theorem claim_C10 (s : Store) :
    (∀ d, get_attendance s (some "") d = get_attendance s none d) ∧
    (∀ eid, get_attendance s eid (some "") = get_attendance s eid none) ∧
    (get_attendance s (some "") none).Perm s.attendance := by
  have hemp : attMatches (some "") = attMatches none := by
    funext d r
    simp [attMatches, strTruthy]
  have hdate : ∀ eid, attMatches eid (some "") = attMatches eid none := by
    intro eid
    funext r
    simp [attMatches, strTruthy]
  refine ⟨?_, ?_, ?_⟩
  · intro d
    unfold get_attendance
    rw [hemp]
  · intro eid
    unfold get_attendance
    rw [hdate]
  · unfold get_attendance
    have hall : List.filter (attMatches (some "") none) s.attendance = s.attendance := by
      rw [List.filter_eq_self]
      intro r _
      simp [attMatches, strTruthy]
    rw [hall]
    exact List.mergeSort_perm _ _

/-- Claim C9: a successful create persists and returns the supplied
`employee_id`, `full_name` and `department` stripped of leading and
trailing whitespace (the pydantic `not_empty` validator returns
`v.strip()`), and the supplied email lower-cased (the handler inserts and
returns `employee.email.lower()`); the returned record is in the store. -/
theorem claim_C9 (raw : EmployeeCreateInput) (c : EmployeeCreate) (s : Store)
    (new_id t : String) (emp : Employee) (s' : Store)
    (hval : validateEmployeeCreate raw = some c)
    (hcr : create_employee s c new_id t = (.ok emp, s')) :
    emp.employee_id = pyStrip raw.employee_id ∧
    emp.full_name = pyStrip raw.full_name ∧
    emp.department = pyStrip raw.department ∧
    emp.email = pyLower raw.email ∧
    emp ∈ s'.employees := by
  unfold validateEmployeeCreate at hval
  split at hval
  case isFalse => exact absurd hval (by simp)
  case isTrue hcond =>
  have hc : _ = c := Option.some.inj hval
  subst hc
  unfold create_employee at hcr
  split at hcr
  · exact absurd hcr (by simp)
  · split at hcr
    · exact absurd hcr (by simp)
    · simp only [Prod.mk.injEq, Except.ok.injEq] at hcr
      obtain ⟨he, hs⟩ := hcr
      subst he
      subst hs
      refine ⟨rfl, rfl, rfl, rfl, ?_⟩
      simp

theorem claim_C9_witness :
    ({ id := "id1", employee_id := "E1", full_name := "Jane Doe",
       email := "jane@example.com", department := "Eng",
       created_at := "t1" } : Employee).employee_id = pyStrip "E1" ∧
    ({ id := "id1", employee_id := "E1", full_name := "Jane Doe",
       email := "jane@example.com", department := "Eng",
       created_at := "t1" } : Employee).full_name = pyStrip "  Jane Doe  " ∧
    ({ id := "id1", employee_id := "E1", full_name := "Jane Doe",
       email := "jane@example.com", department := "Eng",
       created_at := "t1" } : Employee).department = pyStrip "Eng" ∧
    ({ id := "id1", employee_id := "E1", full_name := "Jane Doe",
       email := "jane@example.com", department := "Eng",
       created_at := "t1" } : Employee).email = pyLower "Jane@Example.com" ∧
    ({ id := "id1", employee_id := "E1", full_name := "Jane Doe",
       email := "jane@example.com", department := "Eng",
       created_at := "t1" } : Employee) ∈
      ({ employees := [{ id := "id1", employee_id := "E1",
                         full_name := "Jane Doe", email := "jane@example.com",
                         department := "Eng", created_at := "t1" }],
         attendance := [] } : Store).employees :=
  claim_C9
    { employee_id := "E1", full_name := "  Jane Doe  ",
      email := "Jane@Example.com", department := "Eng" }
    { employee_id := "E1", full_name := "Jane Doe",
      email := "Jane@Example.com", department := "Eng" }
    Store.empty "id1" "t1"
    { id := "id1", employee_id := "E1", full_name := "Jane Doe",
      email := "jane@example.com", department := "Eng", created_at := "t1" }
    { employees := [{ id := "id1", employee_id := "E1", full_name := "Jane Doe",
                      email := "jane@example.com", department := "Eng",
                      created_at := "t1" }], attendance := [] }
    (by decide) rfl

/-- Claim C1: marking attendance for an existing employee succeeds; when a
record for `(employee_id, date)` already exists the handler overwrites only
that record's `status` and `created_at` in place (same id, same table size,
all other records untouched), otherwise it inserts a new record with the
fresh id; the returned record carries the effective id, the requested date
and status, and the new `created_at`. -/
theorem claim_C1 (s : Store) (a : AttendanceCreate) (new_id t : String)
    (hemp : ∃ e ∈ s.employees, e.id = a.employee_id) :
    ∃ rec s', mark_attendance s a new_id t = (.ok rec, s') ∧
      rec.employee_id = a.employee_id ∧ rec.date = a.date ∧
      rec.status = a.status ∧ rec.created_at = t ∧
      s'.employees = s.employees ∧
      (∀ ex, s.attendance.find? (fun r =>
          decide (r.employee_id = a.employee_id ∧ r.date = a.date)) = some ex →
        rec.id = ex.id ∧
        s'.attendance.length = s.attendance.length ∧
        { ex with status := a.status, created_at := t } ∈ s'.attendance ∧
        (∀ r ∈ s.attendance, r.id ≠ ex.id → r ∈ s'.attendance)) ∧
      (s.attendance.find? (fun r =>
          decide (r.employee_id = a.employee_id ∧ r.date = a.date)) = none →
        rec.id = new_id ∧ s'.attendance = s.attendance ++ [rec]) := by
  have h1 : s.employees.any (fun e => decide (e.id = a.employee_id)) = true := by
    rcases hemp with ⟨e, he, heq⟩
    exact List.any_eq_true.mpr ⟨e, he, decide_eq_true heq⟩
  unfold mark_attendance
  rcases hfind : s.attendance.find? (fun r =>
      decide (r.employee_id = a.employee_id ∧ r.date = a.date)) with _ | ex
  · simp only [h1, if_true, hfind]
    refine ⟨_, _, rfl, rfl, rfl, rfl, rfl, rfl, ?_, ?_⟩
    · intro ex hex
      exact absurd hex (by simp)
    · intro _
      exact ⟨rfl, rfl⟩
  · simp only [h1, if_true, hfind]
    have hexmem : ex ∈ s.attendance := List.mem_of_find?_eq_some hfind
    refine ⟨_, _, rfl, rfl, rfl, rfl, rfl, rfl, ?_, ?_⟩
    · intro ex' hex'
      have hexx : ex = ex' := Option.some.inj hex'
      subst hexx
      refine ⟨rfl, List.length_map .., ?_, ?_⟩
      · exact List.mem_map.mpr ⟨ex, hexmem, by simp⟩
      · intro r hr hne
        exact List.mem_map.mpr ⟨r, hr, by simp [hne]⟩
    · intro hnone
      exact absurd hnone (by simp)

theorem claim_C1_witness :
    ∃ rec s',
      mark_attendance
        { employees := [{ id := "id0", employee_id := "E1", full_name := "Alice",
                          email := "alice@x.com", department := "Eng",
                          created_at := "t0" }], attendance := [] }
        { employee_id := "id0", date := "2024-01-15", status := .Present }
        "a1" "t1" = (.ok rec, s') ∧
      rec.employee_id = "id0" ∧ rec.date = "2024-01-15" ∧
      rec.status = .Present ∧ rec.created_at = "t1" := by
  obtain ⟨rec, s', hmark, he, hd, hst, hc, -⟩ := claim_C1
    { employees := [{ id := "id0", employee_id := "E1", full_name := "Alice",
                      email := "alice@x.com", department := "Eng",
                      created_at := "t0" }], attendance := [] }
    { employee_id := "id0", date := "2024-01-15", status := .Present } "a1" "t1"
    ⟨{ id := "id0", employee_id := "E1", full_name := "Alice",
       email := "alice@x.com", department := "Eng", created_at := "t0" },
     by simp, rfl⟩
  exact ⟨rec, s', hmark, he, hd, hst, hc⟩

/-- The in-place update performed by `mark_attendance` changes only
`status` and `created_at`, so it does not change how many rows match a
given `(employee_id, date)` key. -/
theorem key_countP_map_update (l : List AttendanceRecord) (E d ex_id t : String)
    (st : Status) :
    (l.map (fun r => if r.id = ex_id then { r with status := st, created_at := t }
        else r)).countP (fun r => decide (r.employee_id = E ∧ r.date = d))
      = l.countP (fun r => decide (r.employee_id = E ∧ r.date = d)) := by
  rw [List.countP_map]
  apply List.countP_congr
  intro r _
  by_cases h : r.id = ex_id <;> simp [Function.comp, h]

/-- In a list whose `(employee_id, date)` keys are pairwise distinct, a
member with a given key makes the match count for that key exactly one. -/
theorem key_countP_eq_one (E d : String) :
    ∀ l : List AttendanceRecord,
      l.Pairwise (fun r1 r2 =>
        ¬(r1.employee_id = r2.employee_id ∧ r1.date = r2.date)) →
      ∀ x ∈ l, x.employee_id = E → x.date = d →
      l.countP (fun r => decide (r.employee_id = E ∧ r.date = d)) = 1 := by
  intro l
  induction l with
  | nil =>
    intro _ x hx
    cases hx
  | cons a tl ih =>
    intro hp x hx hxe hxd
    rw [List.pairwise_cons] at hp
    rw [List.countP_cons]
    rcases List.mem_cons.mp hx with rfl | hxtl
    · have hta : decide (x.employee_id = E ∧ x.date = d) = true := by
        simp [hxe, hxd]
      have htl0 : tl.countP (fun r => decide (r.employee_id = E ∧ r.date = d)) = 0 := by
        rw [List.countP_eq_zero]
        intro b hb
        simp only [decide_eq_true_eq, not_and]
        intro hbe hbd
        exact hp.1 b hb ⟨hxe.trans hbe.symm, hxd.trans hbd.symm⟩
      simp only [hta]
      rw [if_pos trivial, htl0]
    · have h1 := ih hp.2 x hxtl hxe hxd
      have hfa : decide (a.employee_id = E ∧ a.date = d) = false := by
        simp only [decide_eq_false_iff_not, not_and]
        intro hae had
        exact hp.1 x hxtl ⟨hae.trans hxe.symm, had.trans hxd.symm⟩
      simp only [hfa]
      rw [if_neg (by simp)]
      simpa using h1

/-- If exactly one position of a list satisfies a predicate, any two
members satisfying it are equal. -/
theorem countP_one_unique {α : Type} {p : α → Bool} :
    ∀ l : List α, l.countP p = 1 →
      ∀ x ∈ l, ∀ y ∈ l, p x = true → p y = true → x = y := by
  intro l
  induction l with
  | nil =>
    intro _ x hx
    cases hx
  | cons a tl ih =>
    intro h x hx y hy hpx hpy
    rw [List.countP_cons] at h
    by_cases hpa : p a = true
    · have htl : tl.countP p = 0 := by
        rw [if_pos hpa] at h
        omega
      have hxa : x = a := by
        rcases List.mem_cons.mp hx with rfl | hxtl
        · rfl
        · exact absurd hpx (by simpa using List.countP_eq_zero.mp htl x hxtl)
      have hya : y = a := by
        rcases List.mem_cons.mp hy with rfl | hytl
        · rfl
        · exact absurd hpy (by simpa using List.countP_eq_zero.mp htl y hytl)
      rw [hxa, hya]
    · have htl : tl.countP p = 1 := by
        rw [if_neg hpa] at h
        omega
      have hxtl : x ∈ tl := by
        rcases List.mem_cons.mp hx with rfl | hxtl
        · exact absurd hpx hpa
        · exact hxtl
      have hytl : y ∈ tl := by
        rcases List.mem_cons.mp hy with rfl | hytl
        · exact absurd hpy hpa
        · exact hytl
      exact ih htl x hxtl y hytl hpx hpy

/-- Marking `Absent` on a store holding exactly one row for
`(employee_id, date)` keeps exactly one row for that key and leaves it with
status `Absent`. -/
theorem mark_absent_of_count_one (s1 : Store) (E d id2 t2 : String)
    (r2 : AttendanceRecord) (s2 : Store)
    (hc1 : s1.attendance.countP
      (fun r => decide (r.employee_id = E ∧ r.date = d)) = 1)
    (hm2 : mark_attendance s1 { employee_id := E, date := d, status := .Absent }
      id2 t2 = (.ok r2, s2)) :
    s2.attendance.countP (fun r => decide (r.employee_id = E ∧ r.date = d)) = 1 ∧
    ∀ r ∈ s2.attendance, r.employee_id = E → r.date = d → r.status = .Absent := by
  unfold mark_attendance at hm2
  split at hm2
  case isFalse => exact absurd hm2 (by simp)
  case isTrue h1 =>
  split at hm2
  case h_2 heq2 =>
    exfalso
    have hpos : 0 < s1.attendance.countP
        (fun r => decide (r.employee_id = E ∧ r.date = d)) := by
      rw [hc1]
      exact Nat.one_pos
    obtain ⟨x, hx, hxk⟩ := List.countP_pos.mp hpos
    have hnone := List.find?_eq_none.mp heq2 x hx
    exact hnone (by simpa using hxk)
  case h_1 ex1 heq1 =>
    simp only [Prod.mk.injEq, Except.ok.injEq] at hm2
    obtain ⟨hr2, hs2⟩ := hm2
    subst hs2
    have hex1mem : ex1 ∈ s1.attendance := List.mem_of_find?_eq_some heq1
    have hex1key : ex1.employee_id = E ∧ ex1.date = d := by
      simpa using List.find?_some heq1
    constructor
    · exact (key_countP_map_update s1.attendance E d ex1.id t2 .Absent).trans hc1
    · intro r hr hrE hrd
      rcases List.mem_map.mp hr with ⟨r0, hr0, rfl⟩
      have hkeep_e : ∀ r' : AttendanceRecord,
          (if r'.id = ex1.id then { r' with status := Status.Absent, created_at := t2 }
            else r').employee_id = r'.employee_id := by
        intro r'
        by_cases h : r'.id = ex1.id <;> simp [h]
      have hkeep_d : ∀ r' : AttendanceRecord,
          (if r'.id = ex1.id then { r' with status := Status.Absent, created_at := t2 }
            else r').date = r'.date := by
        intro r'
        by_cases h : r'.id = ex1.id <;> simp [h]
      have hr0E : r0.employee_id = E := by
        have h := hkeep_e r0
        rw [← h]
        exact hrE
      have hr0d : r0.date = d := by
        have h := hkeep_d r0
        rw [← h]
        exact hrd
      have h00 : r0 = ex1 :=
        countP_one_unique s1.attendance hc1 r0 hr0 ex1 hex1mem
          (by simp [hr0E, hr0d]) (by simp [hex1key.1, hex1key.2])
      subst h00
      simp

/-- Claim C2: every store reachable from the empty store by the API's
operations holds at most one attendance row per `(employee_id, date)` pair;
and marking `Present` then `Absent` for the same employee and date leaves
exactly one row for that pair, with status `Absent`. -/
theorem claim_C2 :
    (∀ s : Store, Reachable s → s.attendance.Pairwise (fun r1 r2 =>
        ¬(r1.employee_id = r2.employee_id ∧ r1.date = r2.date))) ∧
    (∀ (s : Store) (E d id1 t1 id2 t2 : String) (r1 : AttendanceRecord)
        (s1 : Store) (r2 : AttendanceRecord) (s2 : Store), Reachable s →
      mark_attendance s { employee_id := E, date := d, status := .Present }
        id1 t1 = (.ok r1, s1) →
      mark_attendance s1 { employee_id := E, date := d, status := .Absent }
        id2 t2 = (.ok r2, s2) →
      s2.attendance.countP
        (fun r => decide (r.employee_id = E ∧ r.date = d)) = 1 ∧
      ∀ r ∈ s2.attendance, r.employee_id = E → r.date = d →
        r.status = .Absent) := by
  constructor
  · intro s hs
    exact hs.wf.att_key
  · intro s E d id1 t1 id2 t2 r1 s1 r2 s2 hs hm1 hm2
    have hc1 : s1.attendance.countP
        (fun r => decide (r.employee_id = E ∧ r.date = d)) = 1 := by
      unfold mark_attendance at hm1
      split at hm1
      case isFalse => exact absurd hm1 (by simp)
      case isTrue h1 =>
      split at hm1
      case h_1 ex heq =>
        simp only [Prod.mk.injEq, Except.ok.injEq] at hm1
        obtain ⟨hr1, hs1⟩ := hm1
        subst hs1
        have hexmem : ex ∈ s.attendance := List.mem_of_find?_eq_some heq
        have hexkey : ex.employee_id = E ∧ ex.date = d := by
          simpa using List.find?_some heq
        exact (key_countP_map_update s.attendance E d ex.id t1 .Present).trans
          (key_countP_eq_one E d s.attendance hs.wf.att_key ex hexmem
            hexkey.1 hexkey.2)
      case h_2 heq =>
        simp only [Prod.mk.injEq, Except.ok.injEq] at hm1
        obtain ⟨hr1, hs1⟩ := hm1
        subst hs1
        have h0 : s.attendance.countP
            (fun r => decide (r.employee_id = E ∧ r.date = d)) = 0 := by
          rw [List.countP_eq_zero]
          intro b hb
          have hb2 := List.find?_eq_none.mp heq b hb
          exact fun hbk => hb2 (by simpa using hbk)
        rw [List.countP_append, h0]
        simp
    exact mark_absent_of_count_one s1 E d id2 t2 r2 s2 hc1 hm2

theorem claim_C2_witness :
    (({ employees := [{ id := "id0", employee_id := "E1", full_name := "Alice",
                        email := "alice@x.com", department := "Eng",
                        created_at := "t0" }],
        attendance := [{ id := "a1", employee_id := "id0", date := "2024-01-15",
                         status := .Absent, created_at := "t2" }] } : Store).attendance.countP
      (fun r => decide (r.employee_id = "id0" ∧ r.date = "2024-01-15")) = 1) ∧
    ∀ r ∈ ({ employees := [{ id := "id0", employee_id := "E1",
                             full_name := "Alice", email := "alice@x.com",
                             department := "Eng", created_at := "t0" }],
             attendance := [{ id := "a1", employee_id := "id0",
                              date := "2024-01-15", status := .Absent,
                              created_at := "t2" }] } : Store).attendance,
      r.employee_id = "id0" → r.date = "2024-01-15" → r.status = .Absent := by
  have hre : Reachable (create_employee Store.empty
      { employee_id := "E1", full_name := "Alice", email := "alice@x.com",
        department := "Eng" } "id0" "t0").2 :=
    Reachable.create Store.empty
      { employee_id := "E1", full_name := "Alice", email := "alice@x.com",
        department := "Eng" } "id0" "t0" Reachable.empty (by simp [Store.empty])
  exact claim_C2.2 (create_employee Store.empty
      { employee_id := "E1", full_name := "Alice", email := "alice@x.com",
        department := "Eng" } "id0" "t0").2
    "id0" "2024-01-15" "a1" "t1" "a2" "t2"
    { id := "a1", employee_id := "id0", date := "2024-01-15",
      status := .Present, created_at := "t1" }
    { employees := [{ id := "id0", employee_id := "E1", full_name := "Alice",
                      email := "alice@x.com", department := "Eng",
                      created_at := "t0" }],
      attendance := [{ id := "a1", employee_id := "id0", date := "2024-01-15",
                       status := .Present, created_at := "t1" }] }
    { id := "a1", employee_id := "id0", date := "2024-01-15",
      status := .Absent, created_at := "t2" }
    { employees := [{ id := "id0", employee_id := "E1", full_name := "Alice",
                      email := "alice@x.com", department := "Eng",
                      created_at := "t0" }],
      attendance := [{ id := "a1", employee_id := "id0", date := "2024-01-15",
                       status := .Absent, created_at := "t2" }] }
    hre (by decide) (by decide)

/-- Transitivity of the `date DESC, created_at DESC` comparison. -/
theorem attOrderDesc_trans (a b c : AttendanceRecord)
    (h1 : attOrderDesc a b = true) (h2 : attOrderDesc b c = true) :
    attOrderDesc a c = true := by
  unfold attOrderDesc at h1 h2 ⊢
  by_cases hab : a.date = b.date
  · by_cases hbc : b.date = c.date
    · rw [if_pos hab] at h1
      rw [if_pos hbc] at h2
      rw [if_pos (hab.trans hbc)]
      exact decide_eq_true (le_trans (of_decide_eq_true h2) (of_decide_eq_true h1))
    · rw [if_pos hab] at h1
      rw [if_neg hbc] at h2
      have h2' : c.date < b.date := of_decide_eq_true h2
      have hac : ¬ a.date = c.date := fun he => hbc (hab.symm.trans he)
      rw [if_neg hac]
      have hlt : c.date < a.date := by
        rw [hab]
        exact h2'
      exact decide_eq_true hlt
  · rw [if_neg hab] at h1
    have h1' : b.date < a.date := of_decide_eq_true h1
    by_cases hbc : b.date = c.date
    · have hac : ¬ a.date = c.date := fun he => hab (he.trans hbc.symm)
      rw [if_neg hac]
      have hlt : c.date < a.date := by
        rw [← hbc]
        exact h1'
      exact decide_eq_true hlt
    · rw [if_neg hbc] at h2
      have h2' : c.date < b.date := of_decide_eq_true h2
      have hlt : c.date < a.date := lt_trans h2' h1'
      have hac : ¬ a.date = c.date := fun he =>
        absurd hlt (by rw [he]; exact lt_irrefl _)
      rw [if_neg hac]
      exact decide_eq_true hlt

/-- Totality of the `date DESC, created_at DESC` comparison. -/
theorem attOrderDesc_total (a b : AttendanceRecord) :
    (attOrderDesc a b || attOrderDesc b a) = true := by
  unfold attOrderDesc
  by_cases h : a.date = b.date
  · rw [if_pos h, if_pos h.symm]
    simp only [Bool.or_eq_true, decide_eq_true_eq]
    exact le_total b.created_at a.created_at
  · rw [if_neg h, if_neg (fun he => h he.symm)]
    simp only [Bool.or_eq_true, decide_eq_true_eq]
    rcases lt_or_gt_of_ne h with hlt | hgt
    · exact Or.inr hlt
    · exact Or.inl hgt

/-- Claim C7: the attendance listing returns exactly the records matching
all supplied (truthy) filters — AND semantics, so a date filter alone
constrains only the date — as a permutation of the matching rows, with no
record invented or dropped, and the result is ordered by date descending
and, for equal dates, by `created_at` descending. -/
theorem claim_C7 (s : Store) (employee_id date : Option String) :
    (get_attendance s employee_id date).Perm
      (s.attendance.filter (attMatches employee_id date)) ∧
    (∀ r : AttendanceRecord, r ∈ get_attendance s employee_id date ↔
      (r ∈ s.attendance ∧
        (∀ v, employee_id = some v → v ≠ "" → r.employee_id = v) ∧
        (∀ v, date = some v → v ≠ "" → r.date = v))) ∧
    (get_attendance s employee_id date).Pairwise (fun r1 r2 =>
      r2.date < r1.date ∨ (r1.date = r2.date ∧ r2.created_at ≤ r1.created_at)) := by
  have hiff : ∀ r : AttendanceRecord, attMatches employee_id date r = true ↔
      ((∀ v, employee_id = some v → v ≠ "" → r.employee_id = v) ∧
       (∀ v, date = some v → v ≠ "" → r.date = v)) := by
    intro r
    unfold attMatches
    rcases employee_id with _ | v1 <;> rcases date with _ | v2
    · simp [strTruthy]
    · by_cases h2 : v2 = "" <;> simp [strTruthy, h2]
    · by_cases h1 : v1 = "" <;> simp [strTruthy, h1]
    · by_cases h1 : v1 = "" <;> by_cases h2 : v2 = "" <;>
        simp [strTruthy, h1, h2]
  refine ⟨List.mergeSort_perm _ _, ?_, ?_⟩
  · intro r
    unfold get_attendance
    rw [List.mem_mergeSort, List.mem_filter]
    constructor
    · rintro ⟨hmem, hmatch⟩
      exact ⟨hmem, (hiff r).mp hmatch⟩
    · rintro ⟨hmem, hguards⟩
      exact ⟨hmem, (hiff r).mpr hguards⟩
  · unfold get_attendance
    have hsorted := List.sorted_mergeSort attOrderDesc_trans attOrderDesc_total
      (s.attendance.filter (attMatches employee_id date))
    apply hsorted.imp
    intro a b h
    unfold attOrderDesc at h
    by_cases hd : a.date = b.date
    · rw [if_pos hd] at h
      exact Or.inr ⟨hd, of_decide_eq_true h⟩
    · rw [if_neg hd] at h
      exact Or.inl (of_decide_eq_true h)

/-- Transitivity of the `created_at DESC` comparison on employees. -/
theorem createdAtDesc_trans (a b c : Employee)
    (h1 : createdAtDesc a b = true) (h2 : createdAtDesc b c = true) :
    createdAtDesc a c = true := by
  unfold createdAtDesc at h1 h2 ⊢
  exact decide_eq_true (le_trans (of_decide_eq_true h2) (of_decide_eq_true h1))

/-- Totality of the `created_at DESC` comparison on employees. -/
theorem createdAtDesc_total (a b : Employee) :
    (createdAtDesc a b || createdAtDesc b a) = true := by
  unfold createdAtDesc
  simp only [Bool.or_eq_true, decide_eq_true_eq]
  exact le_total b.created_at a.created_at

/-- Claim C6: the employee listing returns every employee exactly once (its
employee projection is a permutation of the table), each paired with its
Present and Absent counts over the attendance table (zero counts when no
attendance rows exist, the employee is not omitted), ordered by creation
time descending; and a freshly created employee is retrievable by its
returned id with both counts zero. -/
theorem claim_C6 :
    (∀ s : Store,
      ((get_employees s).map EmployeeWithAttendance.toEmployee).Perm s.employees ∧
      (∀ w ∈ get_employees s,
        w.present_days = s.attendance.countP (fun r =>
          decide (r.employee_id = w.toEmployee.id ∧ r.status = .Present)) ∧
        w.absent_days = s.attendance.countP (fun r =>
          decide (r.employee_id = w.toEmployee.id ∧ r.status = .Absent))) ∧
      (get_employees s).Pairwise (fun w1 w2 =>
        w2.toEmployee.created_at ≤ w1.toEmployee.created_at)) ∧
    (∀ (s : Store) (c : EmployeeCreate) (new_id t : String) (emp : Employee)
        (s' : Store), Reachable s → new_id ∉ s.employees.map Employee.id →
      create_employee s c new_id t = (.ok emp, s') →
      get_employee s' emp.id =
        .ok { emp with present_days := 0, absent_days := 0 }) := by
  constructor
  · intro s
    refine ⟨?_, ?_, ?_⟩
    · unfold get_employees
      rw [List.map_map]
      have hcomp : (EmployeeWithAttendance.toEmployee ∘ employeeSummary s.attendance)
          = fun e => e := funext fun e => rfl
      rw [hcomp]
      have hid : (s.employees.mergeSort createdAtDesc).map (fun e => e)
          = s.employees.mergeSort createdAtDesc := List.map_id' _
      rw [hid]
      exact List.mergeSort_perm _ _
    · intro w hw
      unfold get_employees at hw
      rcases List.mem_map.mp hw with ⟨e, _, rfl⟩
      exact ⟨rfl, rfl⟩
    · unfold get_employees
      rw [List.pairwise_map]
      have hsorted := List.sorted_mergeSort createdAtDesc_trans
        createdAtDesc_total s.employees
      apply hsorted.imp
      intro a b h
      exact of_decide_eq_true h
  · intro s c new_id t emp s' hs hf hcr
    unfold create_employee at hcr
    split at hcr
    · exact absurd hcr (by simp)
    · split at hcr
      · exact absurd hcr (by simp)
      · simp only [Prod.mk.injEq, Except.ok.injEq] at hcr
        obtain ⟨hemp, hs'⟩ := hcr
        subst hemp
        subst hs'
        have hp0 : s.attendance.countP (fun r =>
            decide (r.employee_id = new_id ∧ r.status = Status.Present)) = 0 := by
          rw [List.countP_eq_zero]
          intro r hr
          simp only [decide_eq_true_eq, not_and]
          intro hre _
          obtain ⟨e, he, heq⟩ := hs.wf.att_fk r hr
          exact hf (List.mem_map.mpr ⟨e, he, heq.trans hre⟩)
        have ha0 : s.attendance.countP (fun r =>
            decide (r.employee_id = new_id ∧ r.status = Status.Absent)) = 0 := by
          rw [List.countP_eq_zero]
          intro r hr
          simp only [decide_eq_true_eq, not_and]
          intro hre _
          obtain ⟨e, he, heq⟩ := hs.wf.att_fk r hr
          exact hf (List.mem_map.mpr ⟨e, he, heq.trans hre⟩)
        have h1 : s.employees.find? (fun e => decide (e.id = new_id)) = none := by
          rw [List.find?_eq_none]
          intro e he
          simp only [decide_eq_true_eq]
          intro heq
          exact hf (List.mem_map.mpr ⟨e, he, heq⟩)
        unfold get_employee
        dsimp only
        rw [List.find?_append, h1]
        rw [List.find?_cons_of_pos _ (by simp)]
        refine congrArg Except.ok ?_
        unfold employeeSummary
        rw [EmployeeWithAttendance.mk.injEq]
        exact ⟨rfl, hp0, ha0⟩

theorem claim_C6_witness :
    get_employee
      { employees := [{ id := "id1", employee_id := "E1", full_name := "Jane",
                        email := "jane@x.com", department := "Eng",
                        created_at := "t1" }], attendance := [] }
      ({ id := "id1", employee_id := "E1", full_name := "Jane",
         email := "jane@x.com", department := "Eng",
         created_at := "t1" } : Employee).id =
      .ok { ({ id := "id1", employee_id := "E1", full_name := "Jane",
               email := "jane@x.com", department := "Eng",
               created_at := "t1" } : Employee) with
            present_days := 0, absent_days := 0 } :=
  claim_C6.2 Store.empty
    { employee_id := "E1", full_name := "Jane", email := "jane@x.com",
      department := "Eng" } "id1" "t1"
    { id := "id1", employee_id := "E1", full_name := "Jane",
      email := "jane@x.com", department := "Eng", created_at := "t1" }
    { employees := [{ id := "id1", employee_id := "E1", full_name := "Jane",
                      email := "jane@x.com", department := "Eng",
                      created_at := "t1" }], attendance := [] }
    Reachable.empty (by simp [Store.empty]) (by decide)

/-- Sums of pointwise sums split. -/
theorem sum_map_add_nat {α : Type} (f g : α → Nat) :
    ∀ l : List α, (l.map (fun x => f x + g x)).sum = (l.map f).sum + (l.map g).sum := by
  intro l
  induction l with
  | nil => simp
  | cons a tl ih =>
    simp only [List.map_cons, List.sum_cons, ih]
    omega

/-- Summing an indicator over a list counts the satisfying members. -/
theorem sum_map_ite_eq_countP {α : Type} (p : α → Bool) :
    ∀ l : List α, (l.map (fun x => if p x = true then 1 else 0)).sum = l.countP p := by
  intro l
  induction l with
  | nil => simp
  | cons a tl ih =>
    rw [List.map_cons, List.sum_cons, List.countP_cons, ih]
    exact Nat.add_comm _ _

/-- With pairwise-distinct employee ids, a present id is hit by exactly one
employee row. -/
theorem emp_countP_id_eq_one (X : String) :
    ∀ emps : List Employee, (emps.map Employee.id).Nodup →
      ∀ e0 ∈ emps, e0.id = X →
      emps.countP (fun e => decide (e.id = X)) = 1 := by
  intro emps
  induction emps with
  | nil =>
    intro _ e0 h
    cases h
  | cons a tl ih =>
    intro hnd e0 he0 heq
    rw [List.map_cons, List.nodup_cons] at hnd
    rw [List.countP_cons]
    rcases List.mem_cons.mp he0 with rfl | htl
    · have h0 : tl.countP (fun e => decide (e.id = X)) = 0 := by
        rw [List.countP_eq_zero]
        intro b hb
        simp only [decide_eq_true_eq]
        intro hbX
        exact hnd.1 (List.mem_map.mpr ⟨b, hb, hbX.trans heq.symm⟩)
      have hta : decide (e0.id = X) = true := decide_eq_true heq
      simp only [hta]
      rw [if_pos trivial, h0]
    · have h1 := ih hnd.2 e0 htl heq
      have hfa : decide (a.id = X) = false := by
        simp only [decide_eq_false_iff_not]
        intro haX
        exact hnd.1 (List.mem_map.mpr ⟨e0, htl, heq.trans haX.symm⟩)
      simp only [hfa]
      rw [if_neg (by simp)]
      simpa using h1

/-- Double counting: when every attendance row references exactly one of
the pairwise-distinct employee rows, the per-employee status counts sum to
the global status count. -/
theorem sum_counts (st : Status) :
    ∀ (att : List AttendanceRecord) (emps : List Employee),
      (emps.map Employee.id).Nodup →
      (∀ r ∈ att, ∃ e ∈ emps, e.id = r.employee_id) →
      (emps.map (fun e => att.countP (fun r =>
          decide (r.employee_id = e.id ∧ r.status = st)))).sum
        = att.countP (fun r => decide (r.status = st)) := by
  intro att
  induction att with
  | nil =>
    intro emps _ _
    simp
  | cons r tl ih =>
    intro emps hnd hfk
    have hstep : emps.map (fun e => (r :: tl).countP (fun q =>
        decide (q.employee_id = e.id ∧ q.status = st)))
        = emps.map (fun e => tl.countP (fun q =>
            decide (q.employee_id = e.id ∧ q.status = st))
          + if decide (r.employee_id = e.id ∧ r.status = st) = true then 1 else 0) := by
      apply List.map_congr_left
      intro e _
      rw [List.countP_cons]
    rw [hstep, sum_map_add_nat, ih emps hnd (fun q hq => hfk q (List.mem_cons_of_mem r hq))]
    rw [List.countP_cons]
    congr 1
    by_cases hst : r.status = st
    · have hmap2 : emps.map (fun e =>
          if decide (r.employee_id = e.id ∧ r.status = st) = true then 1 else 0)
          = emps.map (fun e =>
            if (fun e : Employee => decide (e.id = r.employee_id)) e = true
            then 1 else 0) := by
        apply List.map_congr_left
        intro e _
        by_cases h : r.employee_id = e.id
        · rw [if_pos (decide_eq_true (And.intro h hst)),
            if_pos (decide_eq_true h.symm)]
        · have hA : decide (r.employee_id = e.id ∧ r.status = st) ≠ true := by
            simp only [ne_eq, decide_eq_true_eq]
            exact fun hc => h hc.1
          have hB : decide (e.id = r.employee_id) ≠ true := by
            simp only [ne_eq, decide_eq_true_eq]
            exact fun hc => h hc.symm
          rw [if_neg hA, if_neg hB]
      rw [hmap2, sum_map_ite_eq_countP]
      obtain ⟨e0, he0, heq⟩ := hfk r (List.mem_cons_self r tl)
      rw [emp_countP_id_eq_one r.employee_id emps hnd e0 he0 heq]
      rw [if_pos (decide_eq_true hst)]
    · have hmap0 : emps.map (fun e =>
          if decide (r.employee_id = e.id ∧ r.status = st) = true then 1 else 0)
          = emps.map (fun _ => (0 : Nat)) := by
        apply List.map_congr_left
        intro e _
        rw [if_neg]
        simp [hst]
      rw [hmap0]
      rw [if_neg (by simp [hst])]
      simp

/-- Claim C5: in every reachable store, the dashboard's `total_present`
equals the sum over the employee listing of each employee's `present_days`,
and likewise `total_absent` equals the sum of `absent_days`. -/
theorem claim_C5 (s : Store) (today : String) (hs : Reachable s) :
    (get_dashboard_stats s today).total_present
      = ((get_employees s).map EmployeeWithAttendance.present_days).sum ∧
    (get_dashboard_stats s today).total_absent
      = ((get_employees s).map EmployeeWithAttendance.absent_days).sum := by
  constructor
  · unfold get_dashboard_stats get_employees
    dsimp only
    rw [List.map_map]
    have hcomp : (EmployeeWithAttendance.present_days ∘ employeeSummary s.attendance)
        = fun e => s.attendance.countP (fun r =>
            decide (r.employee_id = e.id ∧ r.status = Status.Present)) :=
      funext fun e => rfl
    rw [hcomp]
    have hperm := (List.mergeSort_perm s.employees createdAtDesc).map
      (fun e => s.attendance.countP (fun r =>
        decide (r.employee_id = e.id ∧ r.status = Status.Present)))
    rw [hperm.sum_eq]
    exact (sum_counts .Present s.attendance s.employees hs.wf.emp_ids_nodup
      hs.wf.att_fk).symm
  · unfold get_dashboard_stats get_employees
    dsimp only
    rw [List.map_map]
    have hcomp : (EmployeeWithAttendance.absent_days ∘ employeeSummary s.attendance)
        = fun e => s.attendance.countP (fun r =>
            decide (r.employee_id = e.id ∧ r.status = Status.Absent)) :=
      funext fun e => rfl
    rw [hcomp]
    have hperm := (List.mergeSort_perm s.employees createdAtDesc).map
      (fun e => s.attendance.countP (fun r =>
        decide (r.employee_id = e.id ∧ r.status = Status.Absent)))
    rw [hperm.sum_eq]
    exact (sum_counts .Absent s.attendance s.employees hs.wf.emp_ids_nodup
      hs.wf.att_fk).symm

theorem claim_C5_witness :
    (get_dashboard_stats (mark_attendance (create_employee Store.empty
        { employee_id := "E1", full_name := "Alice", email := "alice@x.com",
          department := "Eng" } "id0" "t0").2
        { employee_id := "id0", date := "2024-01-15", status := .Present }
        "a1" "t1").2 "2024-01-15").total_present
      = ((get_employees (mark_attendance (create_employee Store.empty
          { employee_id := "E1", full_name := "Alice", email := "alice@x.com",
            department := "Eng" } "id0" "t0").2
          { employee_id := "id0", date := "2024-01-15", status := .Present }
          "a1" "t1").2).map EmployeeWithAttendance.present_days).sum ∧
    (get_dashboard_stats (mark_attendance (create_employee Store.empty
        { employee_id := "E1", full_name := "Alice", email := "alice@x.com",
          department := "Eng" } "id0" "t0").2
        { employee_id := "id0", date := "2024-01-15", status := .Present }
        "a1" "t1").2 "2024-01-15").total_absent
      = ((get_employees (mark_attendance (create_employee Store.empty
          { employee_id := "E1", full_name := "Alice", email := "alice@x.com",
            department := "Eng" } "id0" "t0").2
          { employee_id := "id0", date := "2024-01-15", status := .Present }
          "a1" "t1").2).map EmployeeWithAttendance.absent_days).sum :=
  claim_C5 _ "2024-01-15"
    (Reachable.mark (create_employee Store.empty
        { employee_id := "E1", full_name := "Alice", email := "alice@x.com",
          department := "Eng" } "id0" "t0").2
      { employee_id := "id0", date := "2024-01-15", status := .Present }
      "a1" "t1"
      (Reachable.create Store.empty
        { employee_id := "E1", full_name := "Alice", email := "alice@x.com",
          department := "Eng" } "id0" "t0" Reachable.empty
        (by simp [Store.empty]))
      (by decide))
